import Mathlib

/-!
# Verification of the asap build-service orchestration core

Shallow embedding of the repository's build orchestration layer:

* `Deferred` — the single-assignment future from `PromiseUtil` (`class Deferred<T>`);
* the output correlator `getBuildOutput` together with the Node `path`
  helpers and the `PARSE_OUTFILE_RE` filename parser it relies on;
* an operational small-step model of the `build(config)` service closure
  (`start` / `rebuild` / `stop` / `ready`, the `onBuild` / `onBuildError`
  completion handlers, the version counter and the deferred slots), with
  interleaving at the `await` suspension points of the source and with the
  bundler's compile completions supplied as external events.

Machine integers do not occur in the modelled code; errors (TS `Error`
values) are identified abstractly by naturals; fallible operations return
`Except`/`Option`.
-/

namespace Asap

/-- TS `Error` values, identified abstractly. -/
abbrev Err := Nat

/-! ## Deferred (src `PromiseUtil`)

`Deferred<T>` keeps `_value : T | NOTHING` and `error : Error | null`.
We embed the two fields as `Option`s (`none` plays the role of the
`NOTHING` sentinel resp. of `null`).  `resolve`/`reject` throw the string
`"promise already completed"` when the deferred is already completed; a
throw is embedded as `Except.error`. -/

structure Deferred (T : Type) where
  val : Option T
  err : Option Err
deriving Repr, DecidableEq

/-- `deferred<T>()` — a fresh pending deferred. -/
def deferredNew {T : Type} : Deferred T := ⟨none, none⟩

/-- `get isResolved() { return this._value !== nothing; }` -/
def Deferred.isResolved {T : Type} (d : Deferred T) : Bool := d.val.isSome

/-- `get isRejected() { return this.error !== null; }` -/
def Deferred.isRejected {T : Type} (d : Deferred T) : Bool := d.err.isSome

/-- `get isCompleted() { return this.isResolved || this.isRejected; }` -/
def Deferred.isCompleted {T : Type} (d : Deferred T) : Bool :=
  d.isResolved || d.isRejected

/-- `resolve = (value) => { if (this.isCompleted) throw ...; this._value = value; ... }` -/
def Deferred.resolve {T : Type} (d : Deferred T) (v : T) :
    Except String (Deferred T) :=
  if d.isCompleted then Except.error "promise already completed"
  else Except.ok { d with val := some v }

/-- `reject = (error) => { if (this.isCompleted) throw ...; this.error = error; ... }` -/
def Deferred.reject {T : Type} (d : Deferred T) (e : Err) :
    Except String (Deferred T) :=
  if d.isCompleted then Except.error "promise already completed"
  else Except.ok { d with err := some e }

theorem Deferred.isCompleted_of_resolve_ok {T : Type} {d d2 : Deferred T} {v : T}
    (h : d.resolve v = Except.ok d2) : d2.isCompleted = true := by
  unfold Deferred.resolve at h
  split at h
  · exact absurd h (by simp)
  · cases h
    simp [Deferred.isCompleted, Deferred.isResolved]

theorem Deferred.isCompleted_of_reject_ok {T : Type} {d d2 : Deferred T} {e : Err}
    (h : d.reject e = Except.ok d2) : d2.isCompleted = true := by
  unfold Deferred.reject at h
  split at h
  · exact absurd h (by simp)
  · cases h
    simp [Deferred.isCompleted, Deferred.isRejected]

/-- C8: for every `Deferred`, `resolve` and `reject` are jointly single-use:
once either has succeeded, every further `resolve` or `reject` call throws
synchronously (`Except.error`), and the recorded state (the resolved value,
resp. the rejection error) is exactly the first call's argument and is never
overwritten (a throwing call returns no updated deferred at all). -/
theorem deferred_single_use {T : Type} (d : Deferred T) :
    (∀ (v : T) (d2 : Deferred T), d.resolve v = Except.ok d2 →
      d2.val = some v ∧
      (∀ v2 : T, d2.resolve v2 = Except.error "promise already completed") ∧
      (∀ e2 : Err, d2.reject e2 = Except.error "promise already completed")) ∧
    (∀ (e : Err) (d2 : Deferred T), d.reject e = Except.ok d2 →
      d2.err = some e ∧
      (∀ v2 : T, d2.resolve v2 = Except.error "promise already completed") ∧
      (∀ e2 : Err, d2.reject e2 = Except.error "promise already completed")) := by
  constructor
  · intro v d2 h
    have hc := Deferred.isCompleted_of_resolve_ok h
    refine ⟨?_, ?_, ?_⟩
    · unfold Deferred.resolve at h
      split at h
      · exact absurd h (by simp)
      · cases h; rfl
    · intro v2; simp [Deferred.resolve, hc]
    · intro e2; simp [Deferred.reject, hc]
  · intro e d2 h
    have hc := Deferred.isCompleted_of_reject_ok h
    refine ⟨?_, ?_, ?_⟩
    · unfold Deferred.reject at h
      split at h
      · exact absurd h (by simp)
      · cases h; rfl
    · intro v2; simp [Deferred.resolve, hc]
    · intro e2; simp [Deferred.reject, hc]

/-- Witness for C8 at a concrete input: resolving a fresh `Deferred Nat`
with `5` records `5` and makes both `resolve` and `reject` throw. -/
theorem deferred_single_use_witness :
    (Deferred.mk (some 5) none : Deferred Nat).val = some 5 ∧
      (∀ v2 : Nat, (Deferred.mk (some 5) none : Deferred Nat).resolve v2 =
        Except.error "promise already completed") ∧
      (∀ e2 : Err, (Deferred.mk (some 5) none : Deferred Nat).reject e2 =
        Except.error "promise already completed") :=
  (deferred_single_use (deferredNew (T := Nat))).1 5 (Deferred.mk (some 5) none) rfl

/-! ## Node `path` (posix) helpers used by the build service

The build service runs `path.join`, `path.basename`, `path.extname` and
`path.relative` on posix-style absolute file paths.  The embeddings below
follow Node's posix implementations on that domain. -/

/-- Split a character list at every `/` (the posix separator), like
`s.split("/")`.  Structural recursion, so that concrete paths evaluate in
the kernel. -/
def splitSlashAux : List Char → List Char → List (List Char)
  | [], acc => [acc.reverse]
  | c :: rest, acc =>
    if c = '/' then acc.reverse :: splitSlashAux rest []
    else splitSlashAux rest (c :: acc)

def splitSlash (cs : List Char) : List (List Char) := splitSlashAux cs []

/-- Normalize the split segments of a posix path: drop empty and `"."`
segments and resolve `".."` against the segments accumulated so far (a
`".."` at the root of an absolute path is dropped, as in
`path.posix.normalize`). -/
def pathSegments (isAbs : Bool) (parts : List (List Char)) : List (List Char) :=
  parts.foldl
    (fun acc p =>
      if p = [] || p = ['.'] then acc
      else if p = ['.', '.'] then
        if acc = [] then (if isAbs then [] else [['.', '.']])
        else if acc.getLast? = some ['.', '.'] then acc ++ [p]
        else acc.dropLast
      else acc ++ [p])
    []

/-- Interleave path segments with `/`. -/
def joinSegs : List (List Char) → List Char
  | [] => []
  | [p] => p
  | p :: rest => p ++ '/' :: joinSegs rest

/-- `path.posix.join(a, b)`: concatenate with a separator and normalize. -/
def pathJoin (a b : String) : String :=
  let s : List Char :=
    if a = "" then b.toList
    else if b = "" then a.toList
    else a.toList ++ '/' :: b.toList
  match s with
  | [] => "."
  | c :: _ =>
    let abs := c = '/'
    let core := joinSegs (pathSegments abs (splitSlash s))
    if abs then String.mk ('/' :: core)
    else if core = [] then "." else String.mk core

/-- `path.posix.basename(p)` (no extension argument) for the slash-separated
file paths occurring here: the last nonempty segment (`""` when none). -/
def basename (p : String) : String :=
  String.mk ((((splitSlash p.toList).filter (fun q => q ≠ [])).getLast?).getD [])

/-- `path.posix.extname(p)`: the suffix of the basename from its last dot;
`""` when the basename has no dot or only a leading one. -/
def extname (p : String) : String :=
  let b := (basename p).toList
  let tailLen := (b.reverse.takeWhile (fun c => c ≠ '.')).length
  if tailLen = b.length then ""
  else
    let dotIdx := b.length - tailLen - 1
    if dotIdx = 0 then "" else String.mk (b.drop dotIdx)

/-- `path.posix.relative(from, to)` for absolute paths: strip the common
segment prefix, climb out of the remaining `from` segments, descend into
the remaining `to` segments. -/
def pathRelative (fromPath toPath : String) : String :=
  let f := pathSegments true (splitSlash fromPath.toList)
  let t := pathSegments true (splitSlash toPath.toList)
  let n := ((List.zip f t).takeWhile (fun q => q.1 = q.2)).length
  String.mk (joinSegs (((f.drop n).map (fun _ => ['.', '.'])) ++ t.drop n))

/-! ## Output correlator (src `Build.ts`, `getBuildOutput`) -/

/-- Character class `[a-z0-9A-Z_]` of `PARSE_OUTFILE_RE`
(`Char.isAlpha`/`Char.isDigit` are the ASCII ranges). -/
def isWordChar (c : Char) : Bool := c.isAlpha || c.isDigit || c = '_'

/-- Character class `[A-Z0-9]` of `PARSE_OUTFILE_RE`. -/
def isHashChar (c : Char) : Bool := c.isUpper || c.isDigit

/-- Capture group 1 of `PARSE_OUTFILE_RE.exec(basename)`, the regex being
`/^([a-z0-9A-Z_]+)-[A-Z0-9]+\.(js|css)$/`.  Neither character class contains
`-` or `.`, so the backtracking match is forced at every step and the match
is unique: group 1 is the maximal leading run of word characters, which must
be followed by `-`, then a nonempty maximal run of `[A-Z0-9]`, then exactly
`".js"` or `".css"` up to the end of the string. -/
def parseOutfileName (s : String) : Option String :=
  let cs := s.toList
  let name := cs.takeWhile isWordChar
  if name.isEmpty then none
  else
    match cs.drop name.length with
    | '-' :: rest =>
      let hash := rest.takeWhile isHashChar
      if hash.isEmpty then none
      else
        let rest2 := rest.drop hash.length
        if rest2 = ['.', 'j', 's'] || rest2 = ['.', 'c', 's', 's'] then
          some (String.mk name)
        else none
    | _ => none

structure BuildOutputFile where
  path : String
  relativePath : String
deriving Repr, DecidableEq

structure BuildOutputItem where
  js : Option BuildOutputFile
  css : Option BuildOutputFile
deriving Repr, DecidableEq

/-- `EnrtyPoints` (the source's own spelling): a JS object
`{ [name: string]: string }`, embedded as its key/value pairs in insertion
order (keys unique, as for JS object literals). -/
abbrev EnrtyPoints := List (String × String)

/-- `BuildOutput`: JS object from entry-point name to `BuildOutputItem`. -/
abbrev BuildOutput := List (String × BuildOutputItem)

/-- The keys of `metafile.outputs` in insertion order (`getBuildOutput`
consumes only the keys of the raw manifest). -/
abbrev Metafile := List String

/-- JS property read `buildOutput[name]` (unique keys). -/
def outputItemFor (name : String) (bo : BuildOutput) : Option BuildOutputItem :=
  match bo with
  | [] => none
  | kv :: rest => if kv.1 = name then some kv.2 else outputItemFor name rest

/-- The mutation `outputItem.js = ...` resp. `.css = ...` on the slot named
`k`; when `k` is not a key this is the identity, which matches the
`if (outputItem == null) continue;` guard of the source. -/
def setItem (k : String) (f : BuildOutputItem → BuildOutputItem)
    (bo : BuildOutput) : BuildOutput :=
  bo.map (fun kv => if kv.1 = k then (kv.1, f kv.2) else kv)

/-- `makeBuildOutputFile(p)`. -/
def makeBuildOutputFile (buildPath p : String) : BuildOutputFile :=
  ⟨p, pathRelative buildPath p⟩

/-- One iteration of the `for (let p in outputs)` loop of `getBuildOutput`. -/
def corrStep (projectPath buildPath : String) (bo : BuildOutput)
    (p0 : String) : BuildOutput :=
  match parseOutfileName (basename (pathJoin projectPath p0)) with
  | none => bo
  | some entryPointName =>
    if extname (pathJoin projectPath p0) = ".js" then
      setItem entryPointName
        (fun it =>
          { it with js := some (makeBuildOutputFile buildPath (pathJoin projectPath p0)) }) bo
    else if extname (pathJoin projectPath p0) = ".css" then
      setItem entryPointName
        (fun it =>
          { it with css := some (makeBuildOutputFile buildPath (pathJoin projectPath p0)) }) bo
    else bo

/-- `getBuildOutput(projectPath, entryPoints, buildPath, outputs)`:
pre-initialize an all-`null` item per entry point, then walk the manifest
keys, joining each against the project path, parsing the basename against
`PARSE_OUTFILE_RE` and recording the file under the parsed entry-point name
keyed by extension. -/
def getBuildOutput (projectPath : String) (entryPoints : EnrtyPoints)
    (buildPath : String) (outputs : Metafile) : BuildOutput :=
  let initOut : BuildOutput := entryPoints.map (fun kv => (kv.1, ⟨none, none⟩))
  outputs.foldl (corrStep projectPath buildPath) initOut

/-- C4 counterexample: on the spec's own concrete inputs — entry-point set
`{main: "/src/app"}` and raw manifest keys `"/out/app-ab12.js"`,
`"/out/app-ab12.css"` — the correlator records NO assets for `main` at all
(both `js` and `css` stay `null`), so `Output.main.js.relativePath` is not
`"app-ab12.js"` (in JS it would be a TypeError).  Two reasons, visible in
`PARSE_OUTFILE_RE`: the hash segment `ab12` contains lowercase letters while
the regex requires `[A-Z0-9]+`, and the parsed name segment `app` would in
any case not equal the entry-point name `main`. -/
theorem correlate_spec_example_refuted :
    outputItemFor "main"
      (getBuildOutput "/project" [("main", "/src/app")] "/project/out"
        ["/out/app-ab12.js", "/out/app-ab12.css"])
      = some ⟨none, none⟩ := by decide

/-- C4 (amended): the correlator is a pure function of the entry-point set
and raw manifest (determinism is definitional in the embedding; for this
manifest the result is also independent of the manifest's iteration order),
and on inputs matching the code's actual filename contract — the output
basename carries the entry-point NAME and an uppercase/digit hash — it
yields the expected relative paths. -/
theorem correlate_example_corrected :
    (outputItemFor "main"
        (getBuildOutput "/project" [("main", "/src/app")] "/project/out"
          ["/out/main-AB12.js", "/out/main-AB12.css"])
      = some ⟨some ⟨"/project/out/main-AB12.js", "main-AB12.js"⟩,
              some ⟨"/project/out/main-AB12.css", "main-AB12.css"⟩⟩) ∧
    getBuildOutput "/project" [("main", "/src/app")] "/project/out"
        ["/out/main-AB12.js", "/out/main-AB12.css"]
      = getBuildOutput "/project" [("main", "/src/app")] "/project/out"
        ["/out/main-AB12.css", "/out/main-AB12.js"] := by
  exact ⟨by decide, by decide⟩

/-! ### C9: no partial entries -/

/-- The manifest key `p0` is, after `path.join` against the project path,
named for entry point `name` with extension `ext` — the condition under
which the loop body of `getBuildOutput` records a file of kind `ext` for
`name`. -/
def emitsFor (projectPath p0 name ext : String) : Prop :=
  parseOutfileName (basename (pathJoin projectPath p0)) = some name ∧
    extname (pathJoin projectPath p0) = ext

/-- The effect of one `getBuildOutput` loop iteration on the item slot of a
fixed entry-point name. -/
def itemUpd (projectPath buildPath p0 name : String)
    (it : BuildOutputItem) : BuildOutputItem :=
  match parseOutfileName (basename (pathJoin projectPath p0)) with
  | none => it
  | some n =>
    if n = name then
      if extname (pathJoin projectPath p0) = ".js" then
        { it with js := some (makeBuildOutputFile buildPath (pathJoin projectPath p0)) }
      else if extname (pathJoin projectPath p0) = ".css" then
        { it with css := some (makeBuildOutputFile buildPath (pathJoin projectPath p0)) }
      else it
    else it

theorem outputItemFor_setItem (k name : String)
    (f : BuildOutputItem → BuildOutputItem) (bo : BuildOutput) :
    outputItemFor name (setItem k f bo)
      = if name = k then (outputItemFor name bo).map f
        else outputItemFor name bo := by
  induction bo with
  | nil => simp [outputItemFor, setItem]
  | cons kv rest ih =>
    obtain ⟨a, b⟩ := kv
    simp only [setItem] at ih
    by_cases h1 : a = k
    · subst h1
      by_cases h2 : name = a
      · subst h2
        simp [outputItemFor, setItem]
      · have h3 : ¬ a = name := fun h => h2 h.symm
        simp [outputItemFor, setItem, h2, h3, ih]
    · by_cases h2 : a = name
      · subst h2
        simp [outputItemFor, setItem, h1, fun h : a = k => h1 h]
      · simp [outputItemFor, setItem, h1, h2, ih]

theorem outputItemFor_corrStep (projectPath buildPath p0 name : String)
    (bo : BuildOutput) :
    outputItemFor name (corrStep projectPath buildPath bo p0)
      = (outputItemFor name bo).map (itemUpd projectPath buildPath p0 name) := by
  unfold corrStep itemUpd
  cases hp : parseOutfileName (basename (pathJoin projectPath p0)) with
  | none => simp [Option.map_id]
  | some n =>
    by_cases hn : n = name
    · by_cases hjs : extname (pathJoin projectPath p0) = ".js"
      · simp [hjs, outputItemFor_setItem, hn]
      · by_cases hcss : extname (pathJoin projectPath p0) = ".css"
        · simp [hjs, hcss, outputItemFor_setItem, hn]
        · simp [hjs, hcss, Option.map_id]
    · have hn2 : ¬ name = n := fun h => hn h.symm
      by_cases hjs : extname (pathJoin projectPath p0) = ".js"
      · simp [hjs, outputItemFor_setItem, hn, hn2, Option.map_id]
      · by_cases hcss : extname (pathJoin projectPath p0) = ".css"
        · simp [hjs, hcss, outputItemFor_setItem, hn, hn2, Option.map_id]
        · simp [hjs, hcss, hn, Option.map_id]

theorem itemUpd_js_ne (projectPath buildPath p0 name : String)
    (it : BuildOutputItem) (h : it.js ≠ none) :
    (itemUpd projectPath buildPath p0 name it).js ≠ none := by
  unfold itemUpd
  cases parseOutfileName (basename (pathJoin projectPath p0)) with
  | none => exact h
  | some n =>
    by_cases hn : n = name <;>
      by_cases hjs : extname (pathJoin projectPath p0) = ".js" <;>
        by_cases hcss : extname (pathJoin projectPath p0) = ".css" <;>
          simp [hn, hjs, hcss, h]

theorem itemUpd_css_ne (projectPath buildPath p0 name : String)
    (it : BuildOutputItem) (h : it.css ≠ none) :
    (itemUpd projectPath buildPath p0 name it).css ≠ none := by
  unfold itemUpd
  cases parseOutfileName (basename (pathJoin projectPath p0)) with
  | none => exact h
  | some n =>
    by_cases hn : n = name <;>
      by_cases hjs : extname (pathJoin projectPath p0) = ".js" <;>
        by_cases hcss : extname (pathJoin projectPath p0) = ".css" <;>
          simp [hn, hjs, hcss, h]

theorem itemUpd_js_of_emits (projectPath buildPath p0 name : String)
    (it : BuildOutputItem) (h : emitsFor projectPath p0 name ".js") :
    (itemUpd projectPath buildPath p0 name it).js ≠ none := by
  obtain ⟨h1, h2⟩ := h
  unfold itemUpd
  simp [h1, h2]

theorem itemUpd_css_of_emits (projectPath buildPath p0 name : String)
    (it : BuildOutputItem) (h : emitsFor projectPath p0 name ".css") :
    (itemUpd projectPath buildPath p0 name it).css ≠ none := by
  obtain ⟨h1, h2⟩ := h
  unfold itemUpd
  by_cases hjs : extname (pathJoin projectPath p0) = ".js"
  · exact absurd (hjs.symm.trans h2) (by decide)
  · simp [h1, h2, hjs]

theorem correlate_fold_item (projectPath buildPath name : String) :
    ∀ (m : Metafile) (bo : BuildOutput) (it : BuildOutputItem),
      outputItemFor name bo = some it →
      ∃ it2,
        outputItemFor name (m.foldl (corrStep projectPath buildPath) bo) = some it2 ∧
        ((it.js ≠ none ∨ ∃ p0 ∈ m, emitsFor projectPath p0 name ".js") → it2.js ≠ none) ∧
        ((it.css ≠ none ∨ ∃ p0 ∈ m, emitsFor projectPath p0 name ".css") → it2.css ≠ none) := by
  intro m
  induction m with
  | nil =>
    intro bo it h
    refine ⟨it, h, ?_, ?_⟩
    · rintro (h2 | ⟨p0, hp0, _⟩)
      · exact h2
      · cases hp0
    · rintro (h2 | ⟨p0, hp0, _⟩)
      · exact h2
      · cases hp0
  | cons p0 rest ih =>
    intro bo it h
    have hstep : outputItemFor name (corrStep projectPath buildPath bo p0)
        = some (itemUpd projectPath buildPath p0 name it) := by
      rw [outputItemFor_corrStep, h]; rfl
    obtain ⟨it2, hit2, hjs, hcss⟩ :=
      ih (corrStep projectPath buildPath bo p0) _ hstep
    refine ⟨it2, by simpa [List.foldl] using hit2, ?_, ?_⟩
    · rintro (hne | ⟨q, hq, hqe⟩)
      · exact hjs (Or.inl (itemUpd_js_ne _ _ _ _ _ hne))
      · rcases List.mem_cons.mp hq with rfl | hqrest
        · exact hjs (Or.inl (itemUpd_js_of_emits _ _ _ _ _ hqe))
        · exact hjs (Or.inr ⟨q, hqrest, hqe⟩)
    · rintro (hne | ⟨q, hq, hqe⟩)
      · exact hcss (Or.inl (itemUpd_css_ne _ _ _ _ _ hne))
      · rcases List.mem_cons.mp hq with rfl | hqrest
        · exact hcss (Or.inl (itemUpd_css_of_emits _ _ _ _ _ hqe))
        · exact hcss (Or.inr ⟨q, hqrest, hqe⟩)

theorem outputItemFor_initial (name : String) (E : EnrtyPoints)
    (h : name ∈ E.map Prod.fst) :
    outputItemFor name (E.map (fun kv => (kv.1, (⟨none, none⟩ : BuildOutputItem))))
      = some ⟨none, none⟩ := by
  induction E with
  | nil => cases h
  | cons kv rest ih =>
    by_cases hk : kv.1 = name
    · simp [outputItemFor, hk]
    · have : name ∈ rest.map Prod.fst := by
        rcases List.mem_map.mp h with ⟨q, hq, hqn⟩
        rcases List.mem_cons.mp hq with rfl | hqrest
        · exact absurd hqn hk
        · exact List.mem_map.mpr ⟨q, hqrest, hqn⟩
      simp [outputItemFor, hk, ih this]

/-- C9: for every entry-point set and raw manifest, every name of the
entry-point set is present in the correlated `BuildOutput` (pre-initialized
by the first loop of `getBuildOutput`), and its entry is never partial: if
the manifest emitted a `.js` asset correlating to the name, the entry's `js`
field is recorded, and likewise for `.css` — so an entry point whose build
emitted both kinds always carries both. -/
theorem correlate_no_partial_entry (projectPath : String) (E : EnrtyPoints)
    (buildPath : String) (m : Metafile) (name : String)
    (hmem : name ∈ E.map Prod.fst) :
    ∃ it, outputItemFor name (getBuildOutput projectPath E buildPath m) = some it ∧
      ((∃ p0 ∈ m, emitsFor projectPath p0 name ".js") → it.js ≠ none) ∧
      ((∃ p0 ∈ m, emitsFor projectPath p0 name ".css") → it.css ≠ none) := by
  obtain ⟨it2, hit2, hjs, hcss⟩ :=
    correlate_fold_item projectPath buildPath name m
      (E.map (fun kv => (kv.1, ⟨none, none⟩)))
      ⟨none, none⟩ (outputItemFor_initial name E hmem)
  exact ⟨it2, hit2, fun h => hjs (Or.inr h), fun h => hcss (Or.inr h)⟩

/-- Witness for C9 at a concrete input: entry set `{main: "/src/app"}` and a
manifest emitting both a `.js` and a `.css` asset for `main`. -/
theorem correlate_no_partial_entry_witness :
    ∃ it, outputItemFor "main"
        (getBuildOutput "/project" [("main", "/src/app")] "/project/out"
          ["/out/main-AB12.js", "/out/main-AB12.css"]) = some it ∧
      ((∃ p0 ∈ ["/out/main-AB12.js", "/out/main-AB12.css"],
          emitsFor "/project" p0 "main" ".js") → it.js ≠ none) ∧
      ((∃ p0 ∈ ["/out/main-AB12.js", "/out/main-AB12.css"],
          emitsFor "/project" p0 "main" ".css") → it.css ≠ none) :=
  correlate_no_partial_entry "/project" [("main", "/src/app")] "/project/out"
    ["/out/main-AB12.js", "/out/main-AB12.css"] "main" (by decide)

/-! ## Operational model of the build service (src `Build.ts`, `build(config)`)

The service closure is single-threaded JS: every `async` operation runs
synchronously up to its first `await` and interleaving happens only at the
`await` suspension points.  We model a configuration holding the closure's
mutable locals (`started`, `currentVersion`, `previousOutput`, `initial`,
`current`), the single external file `metafilePath`, the set of suspended
continuations (one per `await` a live call is parked on), and a trace of the
calls made against the external bundler handle.  External completions (the
bundler settling a compile, the filesystem completing the metafile write)
and new public API calls are the actions; `exec` runs the unique
synchronous continuation of an action up to the next suspension point,
exactly following the source. -/

/-- An `esbuild.BuildIncremental` handle: an identity (for the trace of
`rebuild.dispose()` / `stop()` calls against it) together with its
`metafile` field (`null` when absent; only the keys of `metafile.outputs`
are consumed). -/
structure Build where
  hid : Nat
  metafile : Option Metafile
deriving Repr, DecidableEq

/-- The state of the file at `metafilePath`: unreadable, readable but not
JSON, or a parsed manifest. -/
inductive DiskFile where
  | missing
  | corrupt
  | valid (m : Metafile)
deriving Repr, DecidableEq

deriving instance DecidableEq for Except

/-- The fixed parts of `BuildConfig` the modelled operations consume. -/
structure BuildConfig where
  projectPath : String
  entryPoints : EnrtyPoints
  buildPath : String

def readFailure : Err := 101
def parseFailure : Err := 102

/-- `loadOutput`: read `metafilePath`, `JSON.parse` it, and correlate.  A
read failure rejects with the filesystem error, a parse failure with the
`JSON.parse` error. -/
def loadOutput (C : BuildConfig) : DiskFile → Except Err BuildOutput
  | .missing => Except.error readFailure
  | .corrupt => Except.error parseFailure
  | .valid m => Except.ok (getBuildOutput C.projectPath C.entryPoints C.buildPath m)

/-- A suspended continuation, identified by the `await` it is parked on:

* `startAwait cid` — `start()` awaiting `esbuild.build(...)` (compile `cid`);
* `rebuildAwaitInitial` — `rebuild()` awaiting `initial.promise` in its
  final `else` branch;
* `rebuildAwaitCompile v cid` — `rebuild()` (generation `v`) awaiting
  `initial.value.rebuild()` (compile `cid`);
* `buildWrite b m v` — `onBuild(b, v)` past its version check, awaiting the
  metafile `writeFile`/`rename`;
* `stopAwait1` / `stopAwait2` — `stop()` awaiting `initial.promise` in its
  first resp. second `try` block. -/
inductive Task where
  | startAwait (cid : Nat)
  | rebuildAwaitInitial
  | rebuildAwaitCompile (version : Nat) (cid : Nat)
  | buildWrite (b : Build) (m : Metafile) (version : Nat)
  | stopAwait1
  | stopAwait2
deriving Repr, DecidableEq

/-- Calls made against the external bundler: starting a full compile,
starting an incremental rebuild, and teardown calls on a handle; plus a
marker for `stop()` returning. -/
inductive TraceEv where
  | invokeBuild (cid : Nat)
  | invokeRebuild (cid : Nat)
  | disposeHandle (hid : Nat)
  | stopHandle (hid : Nat)
  | stopReturned
deriving Repr, DecidableEq

structure Cfg where
  started : Bool
  currentVersion : Nat
  /-- `previousOutput`: `null`, or the (settled) cached load promise.  The
  promise is assigned synchronously before it is first awaited, so a FAILED
  load is cached exactly like a successful one. -/
  previousOutput : Option (Except Err BuildOutput)
  initial : Deferred Build
  current : Deferred (Build × BuildOutput)
  disk : DiskFile
  tasks : List Task
  trace : List TraceEv
  nextCompileId : Nat
  /-- Set when a completion handler throws synchronously out of the service
  code (a double `resolve`/`reject` on a completed deferred). -/
  throwFlag : Bool
deriving Repr, DecidableEq

/-- The closure state right after `build(config)` returns. -/
def initCfg (d : DiskFile) : Cfg :=
  { started := false, currentVersion := 0, previousOutput := none,
    initial := deferredNew, current := deferredNew, disk := d,
    tasks := [], trace := [], nextCompileId := 0, throwFlag := false }

/-- `onBuild(build, version)` from its entry up to its first suspension:
version check first (`SKIPPING` when stale), then — with a metafile — park
on the `writeFile`/`rename`, or — without one (`build.metafile?.outputs!`
is `undefined`, over which `for..in` iterates zero times) — resolve
`current` with the correlation of an empty manifest. -/
def onBuildEnter (C : BuildConfig) (c : Cfg) (b : Build) (v : Nat) : Cfg :=
  if v ≠ c.currentVersion then c
  else
    match b.metafile with
    | some m => { c with tasks := c.tasks ++ [Task.buildWrite b m v] }
    | none =>
      match c.current.resolve (b, getBuildOutput C.projectPath C.entryPoints C.buildPath []) with
      | .ok d2 => { c with current := d2 }
      | .error _ => { c with throwFlag := true }

/-- Resumption of `onBuild` after the metafile write: the `rename` makes the
manifest the new disk content, then `current.resolve({build, output})` runs
against whatever `current` holds NOW (there is no second version check
after the writes). -/
def buildWriteResume (C : BuildConfig) (c : Cfg) (b : Build) (m : Metafile) : Cfg :=
  match c.current.resolve (b, getBuildOutput C.projectPath C.entryPoints C.buildPath m) with
  | .ok d2 => { c with disk := DiskFile.valid m, current := d2 }
  | .error _ => { c with disk := DiskFile.valid m, throwFlag := true }

/-- `onBuildError(err, version)`: version check, diagnostics logging (not
modelled), then `current.reject(err)`.  Synchronous throughout. -/
def onBuildErrorStep (c : Cfg) (e : Err) (v : Nat) : Cfg :=
  if v ≠ c.currentVersion then c
  else
    match c.current.reject e with
    | .ok d2 => { c with current := d2 }
    | .error _ => { c with throwFlag := true }

/-- `start()` up to its first suspension: `started = true`,
`previousOutput = null`, then invoke `esbuild.build(...)` and park on it. -/
def startEnter (c : Cfg) : Cfg :=
  { c with started := true, previousOutput := none,
           trace := c.trace ++ [TraceEv.invokeBuild c.nextCompileId],
           tasks := c.tasks ++ [Task.startAwait c.nextCompileId],
           nextCompileId := c.nextCompileId + 1 }

/-- The `current.value.build.stop?.()` side effect of `rebuild()`'s steady
branch (only when the previous `current` is resolved). -/
def stopCurrentTrace (c : Cfg) : List TraceEv :=
  if c.current.isResolved then
    match c.current.val with
    | some bo => [TraceEv.stopHandle bo.1.hid]
    | none => []
  else []

/-- `rebuild()` up to its first suspension.  With `initial` resolved:
increment the generation, stop a resolved previous build's handle, install
a fresh `current` deferred, and invoke `initial.value.rebuild()` — note the
invocation happens in the synchronous prologue, with NO await on a still
pending previous generation.  With `initial` rejected: fresh deferreds and
a new full `start()`.  Otherwise: park on `initial.promise`. -/
def rebuildEnter (c : Cfg) : Cfg :=
  if c.initial.isResolved then
    { c with currentVersion := c.currentVersion + 1,
             current := deferredNew,
             trace := c.trace ++ stopCurrentTrace c ++ [TraceEv.invokeRebuild c.nextCompileId],
             tasks := c.tasks ++ [Task.rebuildAwaitCompile (c.currentVersion + 1) c.nextCompileId],
             nextCompileId := c.nextCompileId + 1 }
  else if c.initial.isRejected then
    startEnter { c with initial := deferredNew, current := deferredNew }
  else
    { c with tasks := c.tasks ++ [Task.rebuildAwaitInitial] }

/-- `ready()`'s synchronous effect: in the never-`started` branch,
`if (previousOutput == null) previousOutput = loadOutput();` — the promise
is cached before it is awaited, succeed or fail.  In the `started` branch
`ready` only reads state. -/
def readyEnter (C : BuildConfig) (c : Cfg) : Cfg :=
  if c.started then c
  else
    match c.previousOutput with
    | none => { c with previousOutput := some (loadOutput C c.disk) }
    | some _ => c

/-- The value a `ready()` call beginning in configuration `c` settles to:
`some (some out)` / `some none` for an output resp. `null`, and `none` when
the call would suspend on a still-pending current build. -/
def readyResult (C : BuildConfig) (c : Cfg) : Option (Option BuildOutput) :=
  if c.started then
    match c.current.val, c.current.err with
    | some bo, _ => some (some bo.2)
    | none, some _ => some none
    | none, none => none
  else
    some (match c.previousOutput with
          | none => (loadOutput C c.disk).toOption
          | some r => r.toOption)

/-- The teardown calls of `stop()`'s first `try` block: on a resolved
handle, `b.rebuild.dispose(); b.stop?.()` (`fail` models one of them
throwing, so nothing is recorded and the error is caught); on a rejected
`initial`, the `await` itself throws and is caught, so no calls are made. -/
def stopTr1 (c : Cfg) (fail : Bool) : List TraceEv :=
  match c.initial.val with
  | some b => if fail then [] else [TraceEv.disposeHandle b.hid, TraceEv.stopHandle b.hid]
  | none => []

/-- The teardown call of `stop()`'s second `try` block (`b.stop?.()`),
followed by `stop()` returning. -/
def stopTr2 (c : Cfg) (fail : Bool) : List TraceEv :=
  (match c.initial.val with
   | some b => if fail then [] else [TraceEv.stopHandle b.hid]
   | none => []) ++ [TraceEv.stopReturned]

/-- Resumption of `stop()`'s first `try` block once `initial` settles;
then park on the second `await`. -/
def stopResume1Step (c : Cfg) (fail : Bool) : Cfg :=
  if c.tasks.contains Task.stopAwait1 && c.initial.isCompleted then
    { c with tasks := (c.tasks.erase Task.stopAwait1) ++ [Task.stopAwait2],
             trace := c.trace ++ stopTr1 c fail }
  else c

/-- Resumption of `stop()`'s second `try` block, then `started = false` and
`stop()` returns. -/
def stopResume2Step (c : Cfg) (fail : Bool) : Cfg :=
  if c.tasks.contains Task.stopAwait2 && c.initial.isCompleted then
    { c with tasks := c.tasks.erase Task.stopAwait2,
             trace := c.trace ++ stopTr2 c fail,
             started := false }
  else c

/-- Resumption of `rebuild()`'s `await initial.promise`: with `initial`
resolved, `return await rebuild()` re-enters `rebuild`; with it rejected,
the `await` re-throws and `rebuild()` rejects to its own caller. -/
def resumeInitialWaiterStep (c : Cfg) : Cfg :=
  if c.tasks.contains Task.rebuildAwaitInitial && c.initial.isCompleted then
    if c.initial.isResolved then
      rebuildEnter { c with tasks := c.tasks.erase Task.rebuildAwaitInitial }
    else
      { c with tasks := c.tasks.erase Task.rebuildAwaitInitial }
  else c

/-- The compile id a suspended continuation is awaiting, if any. -/
def taskCid : Task → Option Nat
  | .startAwait cid => some cid
  | .rebuildAwaitCompile _ cid => some cid
  | _ => none

def findCompileTask (cid : Nat) : List Task → Option Task
  | [] => none
  | t :: rest => if taskCid t = some cid then some t else findCompileTask cid rest

def removeCompileTask (cid : Nat) : List Task → List Task
  | [] => []
  | t :: rest => if taskCid t = some cid then rest else t :: removeCompileTask cid rest

/-- The generation a suspended metafile write belongs to, if any. -/
def taskWriteVer : Task → Option Nat
  | .buildWrite _ _ v => some v
  | _ => none

def findWriteTask (v : Nat) : List Task → Option Task
  | [] => none
  | t :: rest => if taskWriteVer t = some v then some t else findWriteTask v rest

def removeWriteTask (v : Nat) : List Task → List Task
  | [] => []
  | t :: rest => if taskWriteVer t = some v then rest else t :: removeWriteTask v rest

/-- `esbuild.build(...)` settles for a parked `start()`:
`initial.resolve(build); await onBuild(build, 0)` on success,
`initial.reject(err); onBuildError(err, 0)` on failure (a throw from the
`resolve`/`reject` propagates out of `start()` and skips the handler). -/
def startCompileDone (C : BuildConfig) (c : Cfg) (r : Except Err Build) : Cfg :=
  match r with
  | .ok b =>
    match c.initial.resolve b with
    | .ok d2 => onBuildEnter C { c with initial := d2 } b 0
    | .error _ => { c with throwFlag := true }
  | .error e =>
    match c.initial.reject e with
    | .ok d2 => onBuildErrorStep { c with initial := d2 } e 0
    | .error _ => { c with throwFlag := true }

/-- The actions: public API calls arriving, the external disk changing
between processes, and the external completions that resume a parked
continuation (each a no-op when nothing is parked on it). -/
inductive Act where
  | callStart
  | callRebuild
  | callStop
  | callReady
  | setDisk (d : DiskFile)
  | compileDone (cid : Nat) (r : Except Err Build)
  | writeDone (v : Nat)
  | resumeInitialWaiter
  | stopResume1 (fail : Bool)
  | stopResume2 (fail : Bool)
deriving Repr, DecidableEq

def exec (C : BuildConfig) (c : Cfg) (a : Act) : Cfg :=
  match a with
  | .callStart => startEnter c
  | .callRebuild => rebuildEnter c
  | .callStop => { c with tasks := c.tasks ++ [Task.stopAwait1] }
  | .callReady => readyEnter C c
  | .setDisk d => { c with disk := d }
  | .compileDone cid r =>
    match findCompileTask cid c.tasks with
    | some (Task.startAwait _) =>
      startCompileDone C { c with tasks := removeCompileTask cid c.tasks } r
    | some (Task.rebuildAwaitCompile v _) =>
      match r with
      | .ok b => onBuildEnter C { c with tasks := removeCompileTask cid c.tasks } b v
      | .error e => onBuildErrorStep { c with tasks := removeCompileTask cid c.tasks } e v
    | _ => c
  | .writeDone v =>
    match findWriteTask v c.tasks with
    | some (Task.buildWrite b m _) =>
      buildWriteResume C { c with tasks := removeWriteTask v c.tasks } b m
    | _ => c
  | .resumeInitialWaiter => resumeInitialWaiterStep c
  | .stopResume1 fail => stopResume1Step c fail
  | .stopResume2 fail => stopResume2Step c fail

def run (C : BuildConfig) (c : Cfg) (acts : List Act) : Cfg :=
  acts.foldl (exec C) c

/-- Reachable configurations: everything a service can get into from its
construction, under any interleaving of API calls and completions. -/
def Reach (C : BuildConfig) (c : Cfg) : Prop :=
  ∃ d acts, run C (initCfg d) acts = c

/-! ### Reachability invariants -/

/-- While the service is started, the production-mode output cache is clear
(`start()` set `previousOutput = null` and only the never-`started` branch
of `ready()` ever assigns it). -/
def StartedInv (c : Cfg) : Prop := c.started = true → c.previousOutput = none

/-- An incremental-rebuild invocation is in flight only when the initial
build has resolved. -/
def RebuildInitialInv (c : Cfg) : Prop :=
  ∀ v cid, Task.rebuildAwaitCompile v cid ∈ c.tasks → c.initial.isResolved = true

def Inv (c : Cfg) : Prop := StartedInv c ∧ RebuildInitialInv c

theorem mem_of_removeCompileTask {cid : Nat} {t : Task} :
    ∀ {ts : List Task}, t ∈ removeCompileTask cid ts → t ∈ ts := by
  intro ts
  induction ts with
  | nil => intro h; cases h
  | cons s rest ih =>
    intro h
    unfold removeCompileTask at h
    by_cases hs : taskCid s = some cid
    · rw [if_pos hs] at h
      exact List.mem_cons_of_mem _ h
    · rw [if_neg hs] at h
      rcases List.mem_cons.mp h with rfl | h2
      · exact List.mem_cons_self _ _
      · exact List.mem_cons_of_mem _ (ih h2)

theorem findCompileTask_mem {cid : Nat} {t : Task} :
    ∀ {ts : List Task}, findCompileTask cid ts = some t → t ∈ ts := by
  intro ts
  induction ts with
  | nil => intro h; cases h
  | cons s rest ih =>
    intro h
    unfold findCompileTask at h
    by_cases hs : taskCid s = some cid
    · rw [if_pos hs] at h
      cases h
      exact List.mem_cons_self _ _
    · rw [if_neg hs] at h
      exact List.mem_cons_of_mem _ (ih h)

theorem mem_of_removeWriteTask {v : Nat} {t : Task} :
    ∀ {ts : List Task}, t ∈ removeWriteTask v ts → t ∈ ts := by
  intro ts
  induction ts with
  | nil => intro h; cases h
  | cons s rest ih =>
    intro h
    unfold removeWriteTask at h
    by_cases hs : taskWriteVer s = some v
    · rw [if_pos hs] at h
      exact List.mem_cons_of_mem _ h
    · rw [if_neg hs] at h
      rcases List.mem_cons.mp h with rfl | h2
      · exact List.mem_cons_self _ _
      · exact List.mem_cons_of_mem _ (ih h2)

theorem inv_startEnter {c : Cfg} (h : Inv c) : Inv (startEnter c) := by
  obtain ⟨_, h2⟩ := h
  refine ⟨fun _ => rfl, fun v cid hmem => ?_⟩
  rcases List.mem_append.mp hmem with hm | hm
  · exact h2 v cid hm
  · simp at hm

theorem inv_rebuildEnter {c : Cfg} (h : Inv c) : Inv (rebuildEnter c) := by
  obtain ⟨h1, h2⟩ := h
  unfold rebuildEnter
  split
  next hres => exact ⟨h1, fun v cid hmem => hres⟩
  next hres =>
    split
    next hrej =>
      refine inv_startEnter ⟨h1, fun v cid hmem => ?_⟩
      exact absurd (h2 v cid hmem) hres
    next hrej =>
      refine ⟨h1, fun v cid hmem => ?_⟩
      rcases List.mem_append.mp hmem with hm | hm
      · exact h2 v cid hm
      · simp at hm

theorem inv_onBuildEnter {C : BuildConfig} {c : Cfg} (b : Build) (v : Nat)
    (h : Inv c) : Inv (onBuildEnter C c b v) := by
  obtain ⟨h1, h2⟩ := h
  unfold onBuildEnter
  split
  · exact ⟨h1, h2⟩
  · split
    · refine ⟨h1, fun v2 cid hmem => ?_⟩
      rcases List.mem_append.mp hmem with hm | hm
      · exact h2 v2 cid hm
      · simp at hm
    · split
      · exact ⟨h1, h2⟩
      · exact ⟨h1, h2⟩

theorem inv_onBuildErrorStep {c : Cfg} (e : Err) (v : Nat)
    (h : Inv c) : Inv (onBuildErrorStep c e v) := by
  obtain ⟨h1, h2⟩ := h
  unfold onBuildErrorStep
  split
  · exact ⟨h1, h2⟩
  · split
    · exact ⟨h1, h2⟩
    · exact ⟨h1, h2⟩

theorem inv_tasks_sub {c : Cfg} {ts : List Task}
    (h : Inv c) (hsub : ∀ t, t ∈ ts → t ∈ c.tasks) :
    Inv { c with tasks := ts } :=
  ⟨h.1, fun v cid hmem => h.2 v cid (hsub _ hmem)⟩

theorem val_of_resolve_ok {T : Type} {d d2 : Deferred T} {v : T}
    (h : d.resolve v = Except.ok d2) : d2.val = some v := by
  unfold Deferred.resolve at h
  split at h
  · exact absurd h (by simp)
  · cases h; rfl

theorem not_resolved_of_reject_ok {T : Type} {d d2 : Deferred T} {e : Err}
    (h : d.reject e = Except.ok d2) : d.isResolved = false := by
  unfold Deferred.reject at h
  split at h
  · exact absurd h (by simp)
  next hnc =>
    have : d.isCompleted = false := by
      cases hc : d.isCompleted
      · rfl
      · exact absurd hc hnc
    unfold Deferred.isCompleted at this
    exact (Bool.or_eq_false_iff.mp this).1

theorem inv_startCompileDone {C : BuildConfig} {c : Cfg} (r : Except Err Build)
    (h : Inv c) : Inv (startCompileDone C c r) := by
  obtain ⟨h1, h2⟩ := h
  unfold startCompileDone
  split
  next b =>
    split
    next d2 hres =>
      refine inv_onBuildEnter b 0 ⟨h1, fun v cid hmem => ?_⟩
      have := val_of_resolve_ok hres
      simp [Deferred.isResolved, this]
    next => exact ⟨h1, h2⟩
  next e =>
    split
    next d2 hrej =>
      refine inv_onBuildErrorStep e 0 ⟨h1, fun v cid hmem => ?_⟩
      have hnr := not_resolved_of_reject_ok hrej
      have := h2 v cid hmem
      rw [this] at hnr
      cases hnr
    next => exact ⟨h1, h2⟩

theorem inv_buildWriteResume {C : BuildConfig} {c : Cfg} (b : Build) (m : Metafile)
    (h : Inv c) : Inv (buildWriteResume C c b m) := by
  obtain ⟨h1, h2⟩ := h
  unfold buildWriteResume
  split
  · exact ⟨h1, h2⟩
  · exact ⟨h1, h2⟩

theorem inv_exec (C : BuildConfig) (c : Cfg) (a : Act) (h : Inv c) :
    Inv (exec C c a) := by
  obtain ⟨h1, h2⟩ := h
  cases a with
  | callStart => exact inv_startEnter ⟨h1, h2⟩
  | callRebuild => exact inv_rebuildEnter ⟨h1, h2⟩
  | callStop =>
    refine ⟨h1, fun v cid hmem => ?_⟩
    rcases List.mem_append.mp hmem with hm | hm
    · exact h2 v cid hm
    · simp at hm
  | callReady =>
    show Inv (readyEnter C c)
    unfold readyEnter
    split
    · exact ⟨h1, h2⟩
    next hs =>
      split
      · exact ⟨fun hh => absurd hh hs, h2⟩
      · exact ⟨h1, h2⟩
  | setDisk d => exact ⟨h1, h2⟩
  | compileDone cid r =>
    have hsub : Inv { c with tasks := removeCompileTask cid c.tasks } :=
      inv_tasks_sub ⟨h1, h2⟩ (fun t ht => mem_of_removeCompileTask ht)
    show Inv (match findCompileTask cid c.tasks with
      | some (Task.startAwait _) =>
        startCompileDone C { c with tasks := removeCompileTask cid c.tasks } r
      | some (Task.rebuildAwaitCompile v _) =>
        match r with
        | .ok b => onBuildEnter C { c with tasks := removeCompileTask cid c.tasks } b v
        | .error e => onBuildErrorStep { c with tasks := removeCompileTask cid c.tasks } e v
      | _ => c)
    split
    · exact inv_startCompileDone r hsub
    · split
      · exact inv_onBuildEnter _ _ hsub
      · exact inv_onBuildErrorStep _ _ hsub
    · exact ⟨h1, h2⟩
  | writeDone v =>
    have hsub : Inv { c with tasks := removeWriteTask v c.tasks } :=
      inv_tasks_sub ⟨h1, h2⟩ (fun t ht => mem_of_removeWriteTask ht)
    show Inv (match findWriteTask v c.tasks with
      | some (Task.buildWrite b m _) =>
        buildWriteResume C { c with tasks := removeWriteTask v c.tasks } b m
      | _ => c)
    split
    · exact inv_buildWriteResume _ _ hsub
    · exact ⟨h1, h2⟩
  | resumeInitialWaiter =>
    show Inv (resumeInitialWaiterStep c)
    unfold resumeInitialWaiterStep
    split
    · split
      · exact inv_rebuildEnter
          (inv_tasks_sub ⟨h1, h2⟩ (fun t ht => List.mem_of_mem_erase ht))
      · exact inv_tasks_sub ⟨h1, h2⟩ (fun t ht => List.mem_of_mem_erase ht)
    · exact ⟨h1, h2⟩
  | stopResume1 fail =>
    show Inv (stopResume1Step c fail)
    unfold stopResume1Step
    split
    · refine ⟨h1, fun v cid hmem => ?_⟩
      rcases List.mem_append.mp hmem with hm | hm
      · exact h2 v cid (List.mem_of_mem_erase hm)
      · simp at hm
    · exact ⟨h1, h2⟩
  | stopResume2 fail =>
    show Inv (stopResume2Step c fail)
    unfold stopResume2Step
    split
    · exact ⟨fun hh => by simp at hh, fun v cid hmem =>
        h2 v cid (List.mem_of_mem_erase hmem)⟩
    · exact ⟨h1, h2⟩

theorem inv_run (C : BuildConfig) :
    ∀ (acts : List Act) (c : Cfg), Inv c → Inv (run C c acts) := by
  intro acts
  induction acts with
  | nil => intro c h; exact h
  | cons a rest ih =>
    intro c h
    exact ih (exec C c a) (inv_exec C c a h)

theorem inv_initCfg (d : DiskFile) : Inv (initCfg d) :=
  ⟨fun h => by simp [initCfg] at h, fun v cid hmem => by simp [initCfg] at hmem⟩

theorem inv_reach {C : BuildConfig} {c : Cfg} (h : Reach C c) : Inv c := by
  obtain ⟨d, acts, hrun⟩ := h
  exact hrun ▸ inv_run C acts (initCfg d) (inv_initCfg d)

/-! ### Concrete fixtures for counterexamples and witnesses -/

def exC : BuildConfig := ⟨"/project", [("main", "/src/app")], "/project/out"⟩

def exB0 : Build := ⟨7, some ["/out/main-AB10.js"]⟩

def exBA : Build := ⟨8, some ["/out/main-AB11.js"]⟩

def exBB : Build := ⟨9, some ["/out/main-AB12.js"]⟩

/-- A started service with an initial build resolved and published. -/
def startedActs : List Act :=
  [Act.callStart, Act.compileDone 0 (Except.ok exB0), Act.writeDone 0]

/-- ... followed by two `rebuild()` calls issued without awaiting. -/
def doubleRebuildActs : List Act :=
  startedActs ++ [Act.callRebuild, Act.callRebuild]

/-! ### C1 -/

/-- C1 counterexample: after the initial build resolved, two `rebuild()`
calls issued without awaiting each other BOTH invoke the bundler's
incremental rebuild primitive in their synchronous prologue (trace shows
`invokeRebuild 1` and `invokeRebuild 2`), and afterwards both invocations
are still unsettled — two compiles in flight against the same service at
once.  `rebuild()` only calls `stop?.()` on a RESOLVED previous build; a
pending previous generation is not awaited before `initial.value.rebuild()`
is invoked, so invocation N+1 starts before invocation N settles. -/
theorem rebuild_not_serialized_counterexample :
    (run exC (initCfg DiskFile.missing) doubleRebuildActs).tasks
      = [Task.rebuildAwaitCompile 1 1, Task.rebuildAwaitCompile 2 2] ∧
    (run exC (initCfg DiskFile.missing) doubleRebuildActs).trace
      = [TraceEv.invokeBuild 0, TraceEv.stopHandle 7,
         TraceEv.invokeRebuild 1, TraceEv.invokeRebuild 2] := by
  exact ⟨by decide, by decide⟩

/-- C1 (amended): at-most-one-in-flight does NOT hold — overlapping
`rebuild()` calls each start a bundler rebuild invocation before the prior
one settles.  What the code does guarantee: an incremental-rebuild
invocation is only ever in flight once the initial compile has resolved
(`rebuild()` against a pending initial parks on `initial.promise`, and a
rejected initial restarts a full `start()` compile instead); superseded
completions are discarded by the generation check rather than prevented. -/
theorem rebuild_inflight_initial_resolved {C : BuildConfig} {c : Cfg}
    (hreach : Reach C c) (v cid : Nat)
    (hmem : Task.rebuildAwaitCompile v cid ∈ c.tasks) :
    c.initial.isResolved = true :=
  (inv_reach hreach).2 v cid hmem

/-- Witness for C1's amended theorem at the double-rebuild configuration. -/
theorem rebuild_inflight_initial_resolved_witness :
    (run exC (initCfg DiskFile.missing) doubleRebuildActs).initial.isResolved = true :=
  rebuild_inflight_initial_resolved
    ⟨DiskFile.missing, doubleRebuildActs, rfl⟩ 1 1 (by decide)

theorem run_append (C : BuildConfig) (c : Cfg) (l1 l2 : List Act) :
    run C c (l1 ++ l2) = run C (run C c l1) l2 := by
  simp [run, List.foldl_append]

/-- The configuration after the double-rebuild prologue: generation 2,
fresh pending `current`, generation-0 handle stopped, and BOTH incremental
rebuild invocations (compiles 1 and 2) in flight. -/
def cfgMid : Cfg :=
  { started := true, currentVersion := 2, previousOutput := none,
    initial := ⟨some exB0, none⟩, current := deferredNew,
    disk := DiskFile.valid ["/out/main-AB10.js"],
    tasks := [Task.rebuildAwaitCompile 1 1, Task.rebuildAwaitCompile 2 2],
    trace := [TraceEv.invokeBuild 0, TraceEv.stopHandle 7,
              TraceEv.invokeRebuild 1, TraceEv.invokeRebuild 2],
    nextCompileId := 3, throwFlag := false }

theorem run_doubleRebuild (C : BuildConfig) :
    run C (initCfg DiskFile.missing) doubleRebuildActs = cfgMid := by rfl

/-! ### C2 -/

/-- What `ready()` reflects once the compile result `r` of the freshest
generation is published: the correlated output of `r`'s metafile on
success (the correlation of nothing when the metafile is `null`), `null`
on failure. -/
def expectedOf (C : BuildConfig) (r : Except Err Build) : Option BuildOutput :=
  match r with
  | .ok b => some (getBuildOutput C.projectPath C.entryPoints C.buildPath (b.metafile.getD []))
  | .error _ => none

/-- The double-rebuild scenario: rebuild A (generation 1) and rebuild B
(generation 2) issued unawaited, then the two compiles settle in either
order, then B's metafile write (a no-op when B failed) completes. -/
def c2acts (aFirst : Bool) (rA rB : Except Err Build) : List Act :=
  doubleRebuildActs ++
    (if aFirst then [Act.compileDone 1 rA, Act.compileDone 2 rB]
     else [Act.compileDone 2 rB, Act.compileDone 1 rA]) ++
    [Act.writeDone 2]

/-- C2: (i) in general, a compile completion carrying a generation other
than the service's current one is discarded: it only unparks its
continuation — `current`, the version, the trace and the disk are all
untouched (the version check runs before the metafile write, so a stale
build is not even persisted); (ii) in the double-rebuild scenario,
whichever order the compiles settle in and whatever A's result is,
`ready()` afterwards reflects exactly B's result. -/
theorem stale_rebuild_discarded (C : BuildConfig) :
    (∀ (c : Cfg) (v cid : Nat) (r : Except Err Build),
      findCompileTask cid c.tasks = some (Task.rebuildAwaitCompile v cid) →
      v ≠ c.currentVersion →
      exec C c (Act.compileDone cid r)
        = { c with tasks := removeCompileTask cid c.tasks }) ∧
    (∀ (aFirst : Bool) (rA rB : Except Err Build),
      readyResult C (run C (initCfg DiskFile.missing) (c2acts aFirst rA rB))
        = some (expectedOf C rB)) := by
  constructor
  · intro c v cid r hfind hv
    show (match findCompileTask cid c.tasks with
      | some (Task.startAwait _) =>
        startCompileDone C { c with tasks := removeCompileTask cid c.tasks } r
      | some (Task.rebuildAwaitCompile v _) =>
        match r with
        | .ok b => onBuildEnter C { c with tasks := removeCompileTask cid c.tasks } b v
        | .error e => onBuildErrorStep { c with tasks := removeCompileTask cid c.tasks } e v
      | _ => c) = _
    rw [hfind]
    cases r with
    | ok b =>
      show onBuildEnter C { c with tasks := removeCompileTask cid c.tasks } b v = _
      unfold onBuildEnter
      rw [if_pos hv]
    | error e =>
      show onBuildErrorStep { c with tasks := removeCompileTask cid c.tasks } e v = _
      unfold onBuildErrorStep
      rw [if_pos hv]
  · intro aFirst rA rB
    have hsplit : c2acts aFirst rA rB
        = doubleRebuildActs ++
            ((if aFirst then [Act.compileDone 1 rA, Act.compileDone 2 rB]
              else [Act.compileDone 2 rB, Act.compileDone 1 rA]) ++ [Act.writeDone 2]) := by
      unfold c2acts
      rw [List.append_assoc]
    rw [hsplit, run_append, run_doubleRebuild]
    cases aFirst <;>
      rcases rA with eA | bA <;>
        rcases rB with eB | bB <;>
          first
            | rfl
            | (obtain ⟨hidB, mfB⟩ := bB; cases mfB <;> rfl)

/-- Witness for C2 at concrete inputs: the stale completion of generation 1
in the double-rebuild configuration only removes its parked continuation,
and with both compiles succeeding (A settling first) `ready()` reflects
B's output. -/
theorem stale_rebuild_discarded_witness :
    (exec exC (run exC (initCfg DiskFile.missing) doubleRebuildActs)
        (Act.compileDone 1 (Except.ok exBA))
      = { run exC (initCfg DiskFile.missing) doubleRebuildActs with
          tasks := removeCompileTask 1
            (run exC (initCfg DiskFile.missing) doubleRebuildActs).tasks }) ∧
    readyResult exC (run exC (initCfg DiskFile.missing)
        (c2acts true (Except.ok exBA) (Except.ok exBB)))
      = some (expectedOf exC (Except.ok exBB)) :=
  ⟨(stale_rebuild_discarded exC).1
      (run exC (initCfg DiskFile.missing) doubleRebuildActs) 1 1
      (Except.ok exBA) (by decide) (by decide),
   (stale_rebuild_discarded exC).2 true (Except.ok exBA) (Except.ok exBB)⟩

/-! ### C5 -/

/-- The self-healing scenario: `start()` whose compile fails with `e`, then
one `rebuild()` call, then the new compile succeeds with `b` and its
metafile write completes. -/
def c5acts (e : Err) (b : Build) : List Act :=
  [Act.callStart, Act.compileDone 0 (Except.error e), Act.callRebuild,
   Act.compileDone 1 (Except.ok b), Act.writeDone 0]

/-- The configuration after a failed `start()` compile followed by one
`rebuild()` call: fresh deferreds, a second full compile (id 1) in flight,
no incremental invocation ever made. -/
def cfgRetry : Cfg :=
  { started := true, currentVersion := 0, previousOutput := none,
    initial := deferredNew, current := deferredNew, disk := DiskFile.missing,
    tasks := [Task.startAwait 1],
    trace := [TraceEv.invokeBuild 0, TraceEv.invokeBuild 1],
    nextCompileId := 2, throwFlag := false }

theorem run_failedStart (C : BuildConfig) (e : Err) :
    run C (initCfg DiskFile.missing)
      [Act.callStart, Act.compileDone 0 (Except.error e), Act.callRebuild]
      = cfgRetry := by rfl

/-- C5: (i) in any configuration whose initial build is rejected (and hence
not resolved), `rebuild()` resets the service to a fresh attempt — fresh
pending deferreds for both `initial` and `current` — and runs `start()`'s
prologue, i.e. a full `esbuild.build` compile, not the incremental rebuild
primitive; (ii) in the concrete failed-start scenario, after `rebuild()`
retries and the compile now succeeds, `ready()` returns the new output, and
the trace shows two full-compile invocations and no incremental one. -/
theorem rebuild_retries_failed_start (C : BuildConfig) :
    (∀ c : Cfg, c.initial.isResolved = false → c.initial.isRejected = true →
      exec C c Act.callRebuild
        = startEnter { c with initial := deferredNew, current := deferredNew }) ∧
    (∀ (e : Err) (b : Build) (m : Metafile), b.metafile = some m →
      readyResult C (run C (initCfg DiskFile.missing) (c5acts e b))
        = some (some (getBuildOutput C.projectPath C.entryPoints C.buildPath m)) ∧
      (run C (initCfg DiskFile.missing) (c5acts e b)).trace
        = [TraceEv.invokeBuild 0, TraceEv.invokeBuild 1]) := by
  constructor
  · intro c hres hrej
    show rebuildEnter c = _
    unfold rebuildEnter
    rw [if_neg (by rw [hres]; exact fun hh => Bool.noConfusion hh)]
    rw [if_pos hrej]
  · intro e b m hm
    have hsplit : c5acts e b
        = [Act.callStart, Act.compileDone 0 (Except.error e), Act.callRebuild]
            ++ [Act.compileDone 1 (Except.ok b), Act.writeDone 0] := rfl
    rw [hsplit, run_append, run_failedStart]
    obtain ⟨hid, mf⟩ := b
    cases hm
    exact ⟨rfl, rfl⟩

/-- Witness for C5 at concrete inputs: the failed-start configuration and
the concrete recovery run. -/
theorem rebuild_retries_failed_start_witness :
    (exec exC (run exC (initCfg DiskFile.missing)
        [Act.callStart, Act.compileDone 0 (Except.error 3)]) Act.callRebuild
      = startEnter { run exC (initCfg DiskFile.missing)
            [Act.callStart, Act.compileDone 0 (Except.error 3)] with
          initial := deferredNew, current := deferredNew }) ∧
    (readyResult exC (run exC (initCfg DiskFile.missing) (c5acts 3 exBB))
        = some (some (getBuildOutput "/project" [("main", "/src/app")]
            "/project/out" ["/out/main-AB12.js"])) ∧
      (run exC (initCfg DiskFile.missing) (c5acts 3 exBB)).trace
        = [TraceEv.invokeBuild 0, TraceEv.invokeBuild 1]) :=
  ⟨(rebuild_retries_failed_start exC).1
      (run exC (initCfg DiskFile.missing)
        [Act.callStart, Act.compileDone 0 (Except.error 3)])
      (by decide) (by decide),
   (rebuild_retries_failed_start exC).2 3 exBB ["/out/main-AB12.js"] rfl⟩

/-! ### Never-started services: nothing can settle `initial` -/

theorem not_resolved_of_not_completed {T : Type} {d : Deferred T}
    (h : d.isCompleted = false) : d.isResolved = false := by
  unfold Deferred.isCompleted at h
  exact (Bool.or_eq_false_iff.mp h).1

theorem not_rejected_of_not_completed {T : Type} {d : Deferred T}
    (h : d.isCompleted = false) : d.isRejected = false := by
  unfold Deferred.isCompleted at h
  exact (Bool.or_eq_false_iff.mp h).2

theorem findCompileTask_none {cid : Nat} :
    ∀ {ts : List Task}, (∀ t ∈ ts, taskCid t = none) →
      findCompileTask cid ts = none := by
  intro ts
  induction ts with
  | nil => intro _; rfl
  | cons s rest ih =>
    intro h
    unfold findCompileTask
    rw [if_neg (by rw [h s (List.mem_cons_self s rest)]; exact fun hh => Option.noConfusion hh)]
    exact ih (fun t ht => h t (List.mem_cons_of_mem s ht))

theorem findWriteTask_none {v : Nat} :
    ∀ {ts : List Task}, (∀ t ∈ ts, taskWriteVer t = none) →
      findWriteTask v ts = none := by
  intro ts
  induction ts with
  | nil => intro _; rfl
  | cons s rest ih =>
    intro h
    unfold findWriteTask
    rw [if_neg (by rw [h s (List.mem_cons_self s rest)]; exact fun hh => Option.noConfusion hh)]
    exact ih (fun t ht => h t (List.mem_cons_of_mem s ht))

/-- A service on which `start()` was never invoked, with possibly several
`rebuild()`/`stop()` calls parked on the never-settling `initial` deferred:
`initial` still pending, every suspended continuation is such a parked
call, no bundler call was ever made, `started` never set. -/
def NeverStarted (c : Cfg) : Prop :=
  c.initial.isCompleted = false ∧
  (∀ t ∈ c.tasks, t = Task.rebuildAwaitInitial ∨ t = Task.stopAwait1) ∧
  c.trace = [] ∧ c.started = false

theorem neverStarted_exec {C : BuildConfig} {c : Cfg} (h : NeverStarted c)
    (a : Act) (ha : a ≠ Act.callStart) :
    NeverStarted (exec C c a) ∧ ∀ t ∈ c.tasks, t ∈ (exec C c a).tasks := by
  obtain ⟨hcomp, htasks, htrace, hstart⟩ := h
  have hres := not_resolved_of_not_completed hcomp
  have hrej := not_rejected_of_not_completed hcomp
  have hcidnone : ∀ t ∈ c.tasks, taskCid t = none := by
    intro t ht
    rcases htasks t ht with rfl | rfl <;> rfl
  have hvernone : ∀ t ∈ c.tasks, taskWriteVer t = none := by
    intro t ht
    rcases htasks t ht with rfl | rfl <;> rfl
  cases a with
  | callStart => exact absurd rfl ha
  | callRebuild =>
    have hx : exec C c Act.callRebuild
        = { c with tasks := c.tasks ++ [Task.rebuildAwaitInitial] } := by
      show rebuildEnter c = _
      unfold rebuildEnter
      rw [if_neg (by rw [hres]; exact fun hh => Bool.noConfusion hh)]
      rw [if_neg (by rw [hrej]; exact fun hh => Bool.noConfusion hh)]
    rw [hx]
    refine ⟨⟨hcomp, ?_, htrace, hstart⟩, fun t ht => List.mem_append_left _ ht⟩
    intro t ht
    rcases List.mem_append.mp ht with hm | hm
    · exact htasks t hm
    · exact Or.inl (List.mem_singleton.mp hm)
  | callStop =>
    refine ⟨⟨hcomp, ?_, htrace, hstart⟩, fun t ht => List.mem_append_left _ ht⟩
    intro t ht
    rcases List.mem_append.mp ht with hm | hm
    · exact htasks t hm
    · exact Or.inr (List.mem_singleton.mp hm)
  | callReady =>
    show NeverStarted (readyEnter C c) ∧ ∀ t ∈ c.tasks, t ∈ (readyEnter C c).tasks
    unfold readyEnter
    rw [if_neg (by rw [hstart]; exact fun hh => Bool.noConfusion hh)]
    split
    · exact ⟨⟨hcomp, htasks, htrace, hstart⟩, fun t ht => ht⟩
    · exact ⟨⟨hcomp, htasks, htrace, hstart⟩, fun t ht => ht⟩
  | setDisk d => exact ⟨⟨hcomp, htasks, htrace, hstart⟩, fun t ht => ht⟩
  | compileDone cid r =>
    have hx : exec C c (Act.compileDone cid r) = c := by
      simp only [exec]
      rw [findCompileTask_none hcidnone]
    rw [hx]
    exact ⟨⟨hcomp, htasks, htrace, hstart⟩, fun t ht => ht⟩
  | writeDone v =>
    have hx : exec C c (Act.writeDone v) = c := by
      simp only [exec]
      rw [findWriteTask_none hvernone]
    rw [hx]
    exact ⟨⟨hcomp, htasks, htrace, hstart⟩, fun t ht => ht⟩
  | resumeInitialWaiter =>
    have hx : exec C c Act.resumeInitialWaiter = c := by
      show resumeInitialWaiterStep c = c
      unfold resumeInitialWaiterStep
      rw [if_neg (by rw [hcomp, Bool.and_false]; exact fun hh => Bool.noConfusion hh)]
    rw [hx]
    exact ⟨⟨hcomp, htasks, htrace, hstart⟩, fun t ht => ht⟩
  | stopResume1 fail =>
    have hx : exec C c (Act.stopResume1 fail) = c := by
      show stopResume1Step c fail = c
      unfold stopResume1Step
      rw [if_neg (by rw [hcomp, Bool.and_false]; exact fun hh => Bool.noConfusion hh)]
    rw [hx]
    exact ⟨⟨hcomp, htasks, htrace, hstart⟩, fun t ht => ht⟩
  | stopResume2 fail =>
    have hx : exec C c (Act.stopResume2 fail) = c := by
      show stopResume2Step c fail = c
      unfold stopResume2Step
      rw [if_neg (by rw [hcomp, Bool.and_false]; exact fun hh => Bool.noConfusion hh)]
    rw [hx]
    exact ⟨⟨hcomp, htasks, htrace, hstart⟩, fun t ht => ht⟩

theorem neverStarted_run {C : BuildConfig} :
    ∀ (acts : List Act) (c : Cfg), NeverStarted c → Act.callStart ∉ acts →
      NeverStarted (run C c acts) ∧ ∀ t ∈ c.tasks, t ∈ (run C c acts).tasks := by
  intro acts
  induction acts with
  | nil => intro c h _; exact ⟨h, fun t ht => ht⟩
  | cons a rest ih =>
    intro c h hacts
    have ha : a ≠ Act.callStart := by
      intro he
      exact hacts (by rw [← he]; exact List.mem_cons_self a rest)
    have hrest : Act.callStart ∉ rest := fun he => hacts (List.mem_cons_of_mem a he)
    obtain ⟨h1, h2⟩ := neverStarted_exec h a ha
    obtain ⟨h3, h4⟩ := ih (exec C c a) h1 hrest
    exact ⟨h3, fun t ht => h4 t (h2 t (ht))⟩

/-! ### C6 -/

/-- C6 counterexample: calling `rebuild()` on a freshly constructed, never
`start()`-ed service does NOT delegate to `start()`: no compile of any kind
is invoked (empty trace), the service is still un-started, and the call is
parked on `initial.promise` — which nothing will ever settle, since
`rebuild()` never checks the `started` flag and only `start()` settles
`initial`. -/
theorem rebuild_never_started_counterexample :
    (exec exC (initCfg DiskFile.missing) Act.callRebuild).tasks
      = [Task.rebuildAwaitInitial] ∧
    (exec exC (initCfg DiskFile.missing) Act.callRebuild).trace = [] ∧
    (exec exC (initCfg DiskFile.missing) Act.callRebuild).started = false := by
  exact ⟨by decide, by decide, by decide⟩

/-- C6 (amended): `rebuild()` on a never-started service does not delegate
to `start()` and does not perform any compile; it parks on the pending
`initial` deferred, and under EVERY continuation in which `start()` is
never called it stays parked: no bundler invocation ever happens, `started`
stays false, `initial` stays pending — the call waits indefinitely. -/
theorem rebuild_never_started_blocks (C : BuildConfig) (d : DiskFile)
    (acts : List Act) (hacts : Act.callStart ∉ acts) :
    Task.rebuildAwaitInitial ∈ (run C (exec C (initCfg d) Act.callRebuild) acts).tasks ∧
    (run C (exec C (initCfg d) Act.callRebuild) acts).trace = [] ∧
    (run C (exec C (initCfg d) Act.callRebuild) acts).started = false ∧
    (run C (exec C (initCfg d) Act.callRebuild) acts).initial.isCompleted = false := by
  have htasks0 : (exec C (initCfg d) Act.callRebuild).tasks
      = [Task.rebuildAwaitInitial] := rfl
  have h0 : NeverStarted (exec C (initCfg d) Act.callRebuild) := by
    refine ⟨rfl, ?_, rfl, rfl⟩
    intro t ht
    rw [htasks0] at ht
    exact Or.inl (List.mem_singleton.mp ht)
  obtain ⟨⟨hc, _, htr, hst⟩, hpres⟩ := neverStarted_run acts _ h0 hacts
  refine ⟨hpres _ ?_, htr, hst, hc⟩
  rw [htasks0]
  exact List.mem_singleton.mpr rfl

/-- Witness for C6's amended theorem: a concrete `start()`-free
continuation throwing every other operation at the parked service. -/
theorem rebuild_never_started_blocks_witness :
    Task.rebuildAwaitInitial ∈ (run exC (exec exC (initCfg DiskFile.missing) Act.callRebuild)
      [Act.callStop, Act.callReady, Act.callRebuild,
       Act.resumeInitialWaiter, Act.stopResume1 false, Act.stopResume2 false,
       Act.compileDone 0 (Except.ok exB0), Act.writeDone 0]).tasks ∧
    (run exC (exec exC (initCfg DiskFile.missing) Act.callRebuild)
      [Act.callStop, Act.callReady, Act.callRebuild,
       Act.resumeInitialWaiter, Act.stopResume1 false, Act.stopResume2 false,
       Act.compileDone 0 (Except.ok exB0), Act.writeDone 0]).trace = [] ∧
    (run exC (exec exC (initCfg DiskFile.missing) Act.callRebuild)
      [Act.callStop, Act.callReady, Act.callRebuild,
       Act.resumeInitialWaiter, Act.stopResume1 false, Act.stopResume2 false,
       Act.compileDone 0 (Except.ok exB0), Act.writeDone 0]).started = false ∧
    (run exC (exec exC (initCfg DiskFile.missing) Act.callRebuild)
      [Act.callStop, Act.callReady, Act.callRebuild,
       Act.resumeInitialWaiter, Act.stopResume1 false, Act.stopResume2 false,
       Act.compileDone 0 (Except.ok exB0), Act.writeDone 0]).initial.isCompleted = false :=
  rebuild_never_started_blocks exC DiskFile.missing
    [Act.callStop, Act.callReady, Act.callRebuild,
     Act.resumeInitialWaiter, Act.stopResume1 false, Act.stopResume2 false,
     Act.compileDone 0 (Except.ok exB0), Act.writeDone 0] (by decide)

/-! ### C7 -/

/-- One full `stop()` call: enter, then both `await initial.promise`
resumptions. -/
def stopActs (f1 f2 : Bool) : List Act :=
  [Act.callStop, Act.stopResume1 f1, Act.stopResume2 f2]

theorem contains_append_singleton {t : Task} (ts : List Task) :
    (ts ++ [t]).contains t = true :=
  List.elem_eq_true_of_mem (List.mem_append_right _ (List.mem_singleton_self _))

theorem erase_append_singleton {t : Task} {ts : List Task} (h : t ∉ ts) :
    (ts ++ [t]).erase t = ts := by
  rw [List.erase_append_right _ h]
  simp

/-- A full `stop()` call on a configuration whose `initial` has settled
(either way) runs straight through: it swallows teardown failures, performs
its teardown calls, returns, and leaves everything but `started` and the
trace untouched — in particular it never sets the throw flag. -/
theorem stop_sequence (C : BuildConfig) (c : Cfg) (f1 f2 : Bool)
    (hcomp : c.initial.isCompleted = true)
    (h1 : Task.stopAwait1 ∉ c.tasks) (h2 : Task.stopAwait2 ∉ c.tasks) :
    run C c (stopActs f1 f2)
      = { c with started := false,
                 trace := (c.trace ++ stopTr1 c f1) ++ stopTr2 c f2 } := by
  have e1 : exec C c Act.callStop
      = { c with tasks := c.tasks ++ [Task.stopAwait1] } := rfl
  have e2 : exec C { c with tasks := c.tasks ++ [Task.stopAwait1] } (Act.stopResume1 f1)
      = { c with tasks := c.tasks ++ [Task.stopAwait2],
                 trace := c.trace ++ stopTr1 c f1 } := by
    show stopResume1Step _ f1 = _
    unfold stopResume1Step
    rw [if_pos (by rw [contains_append_singleton, hcomp]; rfl)]
    rw [erase_append_singleton h1]
    rfl
  have e3 : exec C { c with tasks := c.tasks ++ [Task.stopAwait2], trace := c.trace ++ stopTr1 c f1 } (Act.stopResume2 f2)
      = { c with started := false,
                 trace := (c.trace ++ stopTr1 c f1) ++ stopTr2 c f2 } := by
    show stopResume2Step _ f2 = _
    unfold stopResume2Step
    rw [if_pos (by rw [contains_append_singleton, hcomp]; rfl)]
    rw [erase_append_singleton h2]
    rfl
  show exec C (exec C (exec C c Act.callStop) (Act.stopResume1 f1)) (Act.stopResume2 f2) = _
  rw [e1, e2, e3]

/-- C7 counterexample: `stop()` called on a never-started service does not
return — its first `await initial.promise` can never resume because nothing
will ever settle `initial`.  Concretely: after `stop()` and both resumption
opportunities (which are not enabled), the call is still parked on the
first await, no teardown happened and no return was recorded. -/
theorem stop_never_started_counterexample :
    (run exC (initCfg DiskFile.missing)
      [Act.callStop, Act.stopResume1 false, Act.stopResume2 false]).tasks
      = [Task.stopAwait1] ∧
    (run exC (initCfg DiskFile.missing)
      [Act.callStop, Act.stopResume1 false, Act.stopResume2 false]).trace = [] := by
  exact ⟨by decide, by decide⟩

/-- C7 (amended): (i) once `initial` has settled — success OR failure, so
also when no bundler handle was ever obtained — `stop()` runs to
completion: calling it twice in a row (with any combination of teardown
calls throwing, all swallowed) returns twice, never throws, changes nothing
but the `started` flag and the teardown trace; (ii) but on a NEVER-started
service (`start()` never invoked), `stop()` parks on `initial.promise` and
under every `start()`-free continuation it never returns. -/
theorem stop_idempotent_once_settled (C : BuildConfig) :
    (∀ (c : Cfg) (f1 f2 f3 f4 : Bool),
      c.initial.isCompleted = true →
      Task.stopAwait1 ∉ c.tasks → Task.stopAwait2 ∉ c.tasks →
      run C c (stopActs f1 f2 ++ stopActs f3 f4)
        = { c with started := false,
                   trace := (((c.trace ++ stopTr1 c f1) ++ stopTr2 c f2)
                     ++ stopTr1 c f3) ++ stopTr2 c f4 } ∧
      (run C c (stopActs f1 f2 ++ stopActs f3 f4)).throwFlag = c.throwFlag ∧
      (run C c (stopActs f1 f2 ++ stopActs f3 f4)).trace.count TraceEv.stopReturned
        = c.trace.count TraceEv.stopReturned + 2) ∧
    (∀ (d : DiskFile) (acts : List Act), Act.callStart ∉ acts →
      TraceEv.stopReturned ∉
        (run C (exec C (initCfg d) Act.callStop) acts).trace ∧
      Task.stopAwait1 ∈ (run C (exec C (initCfg d) Act.callStop) acts).tasks) := by
  constructor
  · intro c f1 f2 f3 f4 hcomp h1 h2
    have hone := stop_sequence C c f1 f2 hcomp h1 h2
    have hwhole : run C c (stopActs f1 f2 ++ stopActs f3 f4)
        = { c with started := false,
                   trace := (((c.trace ++ stopTr1 c f1) ++ stopTr2 c f2)
                     ++ stopTr1 c f3) ++ stopTr2 c f4 } := by
      rw [run_append, hone]
      have htwo := stop_sequence C
        { c with started := false,
                 trace := (c.trace ++ stopTr1 c f1) ++ stopTr2 c f2 }
        f3 f4 hcomp h1 h2
      rw [htwo]
      rfl
    refine ⟨hwhole, by rw [hwhole], ?_⟩
    rw [hwhole]
    show List.count TraceEv.stopReturned _ = _
    simp only [stopTr1, stopTr2, List.count_append]
    have hz1 : ∀ f : Bool, List.count TraceEv.stopReturned
        (match c.initial.val with
         | some b => if f then [] else [TraceEv.disposeHandle b.hid, TraceEv.stopHandle b.hid]
         | none => []) = 0 := by
      intro f
      cases hv : c.initial.val with
      | none => rfl
      | some b => cases f <;> rfl
    have hz2 : ∀ f : Bool, List.count TraceEv.stopReturned
        (match c.initial.val with
         | some b => if f then [] else [TraceEv.stopHandle b.hid]
         | none => []) = 0 := by
      intro f
      cases hv : c.initial.val with
      | none => rfl
      | some b => cases f <;> rfl
    rw [hz1 f1, hz1 f3, hz2 f2, hz2 f4]
    simp [List.count_singleton]
  · intro d acts hacts
    have htasks0 : (exec C (initCfg d) Act.callStop).tasks = [Task.stopAwait1] := rfl
    have h0 : NeverStarted (exec C (initCfg d) Act.callStop) := by
      refine ⟨rfl, ?_, rfl, rfl⟩
      intro t ht
      rw [htasks0] at ht
      exact Or.inr (List.mem_singleton.mp ht)
    obtain ⟨⟨_, _, htr, _⟩, hpres⟩ := neverStarted_run acts _ h0 hacts
    refine ⟨by rw [htr]; exact List.not_mem_nil _, hpres _ ?_⟩
    rw [htasks0]
    exact List.mem_singleton.mpr rfl

/-- The configuration of a service whose initial compile failed (no bundler
handle was ever obtained). -/
def cfgFailedStart : Cfg :=
  run exC (initCfg DiskFile.missing)
    [Act.callStart, Act.compileDone 0 (Except.error 3)]

/-- Witness for C7's amended theorem: double `stop()` on a service whose
initial compile FAILED (no handle ever obtained), with the second teardown
pair throwing; and a concrete `start()`-free continuation of a never-started
`stop()`. -/
theorem stop_idempotent_once_settled_witness :
    (run exC cfgFailedStart (stopActs false false ++ stopActs true true)
      = { cfgFailedStart with
          started := false,
          trace := (((cfgFailedStart.trace ++ stopTr1 cfgFailedStart false)
            ++ stopTr2 cfgFailedStart false)
            ++ stopTr1 cfgFailedStart true) ++ stopTr2 cfgFailedStart true } ∧
      (run exC cfgFailedStart
        (stopActs false false ++ stopActs true true)).throwFlag
        = cfgFailedStart.throwFlag ∧
      (run exC cfgFailedStart
        (stopActs false false ++ stopActs true true)).trace.count TraceEv.stopReturned
        = cfgFailedStart.trace.count TraceEv.stopReturned + 2) ∧
    (TraceEv.stopReturned ∉
        (run exC (exec exC (initCfg DiskFile.missing) Act.callStop)
          [Act.callRebuild, Act.stopResume1 true, Act.stopResume2 false]).trace ∧
      Task.stopAwait1 ∈ (run exC (exec exC (initCfg DiskFile.missing) Act.callStop)
          [Act.callRebuild, Act.stopResume1 true, Act.stopResume2 false]).tasks) :=
  ⟨(stop_idempotent_once_settled exC).1 cfgFailedStart
      false false true true (by decide) (by decide) (by decide),
   (stop_idempotent_once_settled exC).2 DiskFile.missing
      [Act.callRebuild, Act.stopResume1 true, Act.stopResume2 false] (by decide)⟩

/-! ### Behavior of `ready()` on an un-started service (helpers for C3/C10) -/

theorem readyResult_unstarted (C : BuildConfig) (c : Cfg) (d : DiskFile)
    (hst : c.started = false) (hprev : c.previousOutput = none)
    (hdisk : c.disk = d) :
    readyResult C c = some ((loadOutput C d).toOption) := by
  unfold readyResult
  rw [if_neg (by rw [hst]; exact fun hh => Bool.noConfusion hh)]
  rw [hprev, hdisk]

theorem readyResult_unstarted_cached (C : BuildConfig) (c : Cfg)
    (r : Except Err BuildOutput)
    (hst : c.started = false) (hprev : c.previousOutput = some r) :
    readyResult C c = some r.toOption := by
  unfold readyResult
  rw [if_neg (by rw [hst]; exact fun hh => Bool.noConfusion hh)]
  rw [hprev]

theorem readyEnter_unstarted_first (C : BuildConfig) (c : Cfg)
    (hst : c.started = false) (hprev : c.previousOutput = none) :
    readyEnter C c = { c with previousOutput := some (loadOutput C c.disk) } := by
  unfold readyEnter
  rw [if_neg (by rw [hst]; exact fun hh => Bool.noConfusion hh)]
  rw [hprev]

theorem readyEnter_unstarted_cached (C : BuildConfig) (c : Cfg)
    (r : Except Err BuildOutput)
    (hst : c.started = false) (hprev : c.previousOutput = some r) :
    readyEnter C c = c := by
  unfold readyEnter
  rw [if_neg (by rw [hst]; exact fun hh => Bool.noConfusion hh)]
  rw [hprev]

/-! ### C10 -/

/-- C10: when `stop()` takes its final step on a previously started,
reachable service configuration, it clears `started`; since `start()` had
cleared the production-mode cache and only the un-started branch of
`ready()` ever sets it (the reachability invariant `StartedInv`),
`previousOutput` is still `null`, so the next `ready()` no longer returns
the in-memory current build's output: it re-derives the Output by loading
the metafile persisted on disk, yielding `null` exactly when that file is
missing or unparsable; and a further `ready()` call returns the same
disk-derived result from the fresh cache. -/
theorem ready_after_stop_rederives {C : BuildConfig} {c : Cfg} (f : Bool)
    (hreach : Reach C c) (hstarted : c.started = true)
    (hcon : c.tasks.contains Task.stopAwait2 = true)
    (hcomp : c.initial.isCompleted = true) :
    (exec C c (Act.stopResume2 f)).started = false ∧
    (exec C c (Act.stopResume2 f)).previousOutput = none ∧
    readyResult C (exec C c (Act.stopResume2 f))
      = some ((loadOutput C c.disk).toOption) ∧
    readyResult C (exec C (exec C c (Act.stopResume2 f)) Act.callReady)
      = some ((loadOutput C c.disk).toOption) ∧
    ((c.disk = DiskFile.missing ∨ c.disk = DiskFile.corrupt) →
      readyResult C (exec C c (Act.stopResume2 f)) = some none) := by
  have hprev : c.previousOutput = none := (inv_reach hreach).1 hstarted
  have hx : exec C c (Act.stopResume2 f)
      = { c with tasks := c.tasks.erase Task.stopAwait2,
                 trace := c.trace ++ stopTr2 c f,
                 started := false } := by
    show stopResume2Step c f = _
    unfold stopResume2Step
    rw [if_pos (by rw [hcon, hcomp]; rfl)]
  have hst2 : (exec C c (Act.stopResume2 f)).started = false := by rw [hx]
  have hprev2 : (exec C c (Act.stopResume2 f)).previousOutput = none := by
    rw [hx]; exact hprev
  have hdisk2 : (exec C c (Act.stopResume2 f)).disk = c.disk := by rw [hx]
  have hready : readyResult C (exec C c (Act.stopResume2 f))
      = some ((loadOutput C c.disk).toOption) :=
    readyResult_unstarted C _ c.disk hst2 hprev2 hdisk2
  have henter := readyEnter_unstarted_first C (exec C c (Act.stopResume2 f)) hst2 hprev2
  refine ⟨hst2, hprev2, hready, ?_, ?_⟩
  · show readyResult C (readyEnter C (exec C c (Act.stopResume2 f))) = _
    rw [henter]
    rw [readyResult_unstarted_cached C
      { exec C c (Act.stopResume2 f) with
        previousOutput := some (loadOutput C (exec C c (Act.stopResume2 f)).disk) }
      (loadOutput C (exec C c (Act.stopResume2 f)).disk) hst2 rfl]
    rw [hdisk2]
  · rintro (hd | hd) <;>
      · rw [hready, hd]
        rfl

/-- The configuration of a started, published service whose `stop()` call
has passed its first teardown block and is parked on the second. -/
def cfgStopping : Cfg :=
  run exC (initCfg DiskFile.missing)
    [Act.callStart, Act.compileDone 0 (Except.ok exB0), Act.writeDone 0,
     Act.callStop, Act.stopResume1 false]

/-- Witness for C10 at the concrete stopping configuration (whose disk
holds the metafile persisted by the initial build). -/
theorem ready_after_stop_rederives_witness :
    (exec exC cfgStopping (Act.stopResume2 false)).started = false ∧
    (exec exC cfgStopping (Act.stopResume2 false)).previousOutput = none ∧
    readyResult exC (exec exC cfgStopping (Act.stopResume2 false))
      = some ((loadOutput exC cfgStopping.disk).toOption) ∧
    readyResult exC (exec exC (exec exC cfgStopping (Act.stopResume2 false)) Act.callReady)
      = some ((loadOutput exC cfgStopping.disk).toOption) ∧
    ((cfgStopping.disk = DiskFile.missing ∨ cfgStopping.disk = DiskFile.corrupt) →
      readyResult exC (exec exC cfgStopping (Act.stopResume2 false)) = some none) :=
  ready_after_stop_rederives false
    ⟨DiskFile.missing,
     [Act.callStart, Act.compileDone 0 (Except.ok exB0), Act.writeDone 0,
      Act.callStop, Act.stopResume1 false], rfl⟩
    (by decide) (by decide) (by decide)

/-! ### C3 -/

def exDiskM : Metafile := ["/out/main-AB12.js"]

/-- C3 counterexample: a FAILED load is cached exactly like a successful
one.  The first `ready()` on a never-started service with the metafile
missing returns `null` and caches the rejected load promise; the metafile
then appears on disk (written by another process); the next `ready()` does
NOT attempt a new load — it returns `null` from the cached rejected
promise, even though `loadOutput` on the current disk now succeeds and
derives a real Output.  This refutes "every ready() call attempts to load
the persisted metafile from disk and returns the Output derived from it". -/
theorem ready_failed_load_cached_counterexample :
    readyResult exC (run exC (initCfg DiskFile.missing)
      [Act.callReady, Act.setDisk (DiskFile.valid exDiskM)])
      = some none ∧
    loadOutput exC (DiskFile.valid exDiskM)
      = Except.ok (getBuildOutput "/project" [("main", "/src/app")]
          "/project/out" exDiskM) := by
  exact ⟨by decide, by decide⟩

/-- C3 (amended): for a Build Service on which `start()` was never called,
the FIRST `ready()` call attempts to load the persisted metafile and caches
the load promise whether it succeeds or fails; every `ready()` call returns
rather than throwing — the Output derived from the metafile on a (cached)
successful load, `null` on a (cached) read or parse failure.  A failed load
is therefore never retried by later `ready()` calls. -/
theorem ready_unstarted_first_load_cached (C : BuildConfig) (c : Cfg)
    (hst : c.started = false) :
    (c.previousOutput = none →
      exec C c Act.callReady
        = { c with previousOutput := some (loadOutput C c.disk) } ∧
      readyResult C c = some ((loadOutput C c.disk).toOption)) ∧
    (∀ r, c.previousOutput = some r →
      exec C c Act.callReady = c ∧ readyResult C c = some r.toOption) ∧
    (∀ e, c.previousOutput = some (Except.error e) →
      readyResult C c = some none) := by
  refine ⟨fun hprev => ⟨readyEnter_unstarted_first C c hst hprev,
      readyResult_unstarted C c c.disk hst hprev rfl⟩,
    fun r hprev => ⟨readyEnter_unstarted_cached C c r hst hprev,
      readyResult_unstarted_cached C c r hst hprev⟩,
    fun e hprev => ?_⟩
  rw [readyResult_unstarted_cached C c _ hst hprev]
  rfl

/-- Witness for C3's amended theorem: the fresh never-started service with
a missing metafile (first call: load attempted, failure cached, `null`
returned), and the configuration after that first call (cached failure:
state unchanged, still `null`). -/
theorem ready_unstarted_first_load_cached_witness :
    (exec exC (initCfg DiskFile.missing) Act.callReady
        = { initCfg DiskFile.missing with
            previousOutput := some (loadOutput exC (initCfg DiskFile.missing).disk) } ∧
      readyResult exC (initCfg DiskFile.missing)
        = some ((loadOutput exC (initCfg DiskFile.missing).disk).toOption)) ∧
    (exec exC (exec exC (initCfg DiskFile.missing) Act.callReady) Act.callReady
        = exec exC (initCfg DiskFile.missing) Act.callReady ∧
      readyResult exC (exec exC (initCfg DiskFile.missing) Act.callReady)
        = some ((Except.error readFailure : Except Err BuildOutput).toOption)) ∧
    readyResult exC (exec exC (initCfg DiskFile.missing) Act.callReady) = some none :=
  ⟨(ready_unstarted_first_load_cached exC (initCfg DiskFile.missing) rfl).1 rfl,
   (ready_unstarted_first_load_cached exC
      (exec exC (initCfg DiskFile.missing) Act.callReady) rfl).2.1
      (Except.error readFailure) (by decide),
   (ready_unstarted_first_load_cached exC
      (exec exC (initCfg DiskFile.missing) Act.callReady) rfl).2.2
      readFailure (by decide)⟩

end Asap
